import Mathlib

/-!
Verification of the wrpl replay-stream parser.

The development shallowly embeds the two modules of the repository:

* the `deserializer` module (chat / mpi / generic payload deserializers,
  built on the injected `danet::BitStream` bit-level reader), and
* the `parser` module (`byte_stream_reader`, `read_variable_length_size`,
  `read_packet_header_from_stream` and the `process_stream` driver loop).

Bytes are modelled as `Nat` (values below 256 in every real stream); the
machine is little-endian, so a `memcpy` of k bytes into an unsigned integer
is modelled by the little-endian value of those bytes.  The incremental
zlib inflate engine is an injected external component: the driver is
modelled over the decompressed byte sequence it yields, with the reader's
pending-buffer semantics (`read`, `prepend_to_buffer`, `is_eof`) embedded
directly on that sequence.  The driver's per-packet diagnostic lines are
modelled as `PacketRecord` values and the final summary as `RunResult`.
-/

namespace wrpl

/-- Little-endian 16-bit value of two bytes, as produced by a 2-byte
`memcpy` into a `uint16_t` on a little-endian host. -/
def le16 (a b : Nat) : Nat := a + 256 * b

/-- Little-endian 32-bit value of four bytes, as produced by a 4-byte
`memcpy` into a `uint32_t` on a little-endian host. -/
def le32 (a b c d : Nat) : Nat := a + 256 * b + 65536 * c + 16777216 * d

/-! Deserializer module (chat / mpi / generic packets). -/

/-- Error enumeration `deserialize_error` of the deserializer module. -/
inductive deserialize_error where
  | insufficient_data
  | invalid_format
  | bitstream_read_failure
  | unsupported_packet_type
deriving DecidableEq

/-- Decoded chat packet (`chat_packet_data`); the two strings are kept as
their raw byte lists. -/
structure chat_packet_data where
  sender_name : List Nat
  message : List Nat
  is_enemy : Bool
  channel_id : Nat
  bits_read : Nat
deriving DecidableEq

/-- Decoded mpi packet (`mpi_packet_data`). -/
structure mpi_packet_data where
  object_id : Nat
  message_id : Nat
  payload : List Nat
deriving DecidableEq

/-- Decoded generic packet (`generic_packet_data`). -/
structure generic_packet_data where
  raw_payload : List Nat
deriving DecidableEq

/-- Abstract interface of the injected `danet::BitStream` bit-level reader
(the repository only includes its header).  `init` models constructing the
stream over a payload; the read operations return `none` on failure, as the
boolean-returning C++ reads do.  Any implementation may instantiate it. -/
structure BitStreamOps (σ : Type) where
  init : List Nat → σ
  readCompressed : σ → Option (Nat × σ)
  ignoreBytes : Nat → σ → σ
  readBytes : Nat → σ → Option (List Nat × σ)
  readByte : σ → Option (Nat × σ)
  readBool : σ → Option (Bool × σ)
  unreadBits : σ → Nat
  readOffset : σ → Nat

/-- String-reading phase of `deserialize_chat_packet`: the ignored
length-prefixed field (skipped via `IgnoreBytes` when its length is
positive), then the length-prefixed sender name, then the length-prefixed
message body.  A zero length skips the corresponding byte read, exactly as
the `read_ok && len > 0` guards do in the source. -/
def chat_read_strings {σ : Type} (bs : BitStreamOps σ) (s0 : σ) :
    Option ((List Nat × List Nat) × σ) :=
  match bs.readCompressed s0 with
  | none => none
  | some (prefix_len, s1) =>
    let s2 := if prefix_len > 0 then bs.ignoreBytes prefix_len s1 else s1
    match bs.readCompressed s2 with
    | none => none
    | some (sender_len, s3) =>
      match (if sender_len > 0 then bs.readBytes sender_len s3 else some ([], s3)) with
      | none => none
      | some (sender, s4) =>
        match bs.readCompressed s4 with
        | none => none
        | some (message_len, s5) =>
          match (if message_len > 0 then bs.readBytes message_len s5 else some ([], s5)) with
          | none => none
          | some (msg, s6) => some ((sender, msg), s6)

/-- Flag-reading phase of `deserialize_chat_packet`: a one-byte channel id
only when at least 8 unread bits remain, then a one-bit enemy flag only
when at least 1 unread bit remains. -/
def chat_read_flags {σ : Type} (bs : BitStreamOps σ) (s : σ) :
    Option ((Nat × Bool) × σ) :=
  match (if bs.unreadBits s ≥ 8 then bs.readByte s else some (0, s)) with
  | none => none
  | some (chan, s1) =>
    match (if bs.unreadBits s1 ≥ 1 then bs.readBool s1 else some (false, s1)) with
    | none => none
    | some (enemy, s2) => some ((chan, enemy), s2)

/-- Embedding of `deserialize_chat_packet`: an empty payload fails with
`insufficient_data`; otherwise the bit stream is constructed over the
payload and the string and flag phases run, any failed read yielding
`bitstream_read_failure`; on success `bits_read` is the final read offset. -/
def deserialize_chat_packet {σ : Type} (bs : BitStreamOps σ) (payload : List Nat) :
    Except deserialize_error chat_packet_data :=
  if payload.isEmpty then .error .insufficient_data
  else
    match chat_read_strings bs (bs.init payload) with
    | none => .error .bitstream_read_failure
    | some ((sender, msg), s) =>
      match chat_read_flags bs s with
      | none => .error .bitstream_read_failure
      | some ((chan, enemy), s2) => .ok ⟨sender, msg, enemy, chan, bs.readOffset s2⟩

/-- Embedding of `deserialize_mpi_packet`: fewer than 4 payload bytes fail
with `insufficient_data`; otherwise the two little-endian 16-bit fields are
copied out and the bytes past the first 4 pass through untouched. -/
def deserialize_mpi_packet (payload : List Nat) : Except deserialize_error mpi_packet_data :=
  match payload with
  | a :: b :: c :: d :: rest => .ok ⟨le16 a b, le16 c d, rest⟩
  | _ => .error .insufficient_data

/-- Embedding of `deserialize_generic_packet`: all bytes pass through. -/
def deserialize_generic_packet (payload : List Nat) : Except deserialize_error generic_packet_data :=
  .ok ⟨payload⟩

/-- Modelled from the spec: the chat deserializer as §4.6 words it — an
ignored length-prefixed field, a length-prefixed sender name, a
length-prefixed message body, then a one-byte channel id only if at least
8 unread bits remain and a one-bit enemy flag only if at least 1 unread
bit remains; an empty payload fails with `insufficient_data` and any
failed bit-level read fails the whole packet with
`bitstream_read_failure`.  Compared against `deserialize_chat_packet`. -/
def chat_packet_spec {σ : Type} (bs : BitStreamOps σ) (payload : List Nat) :
    Except deserialize_error chat_packet_data :=
  if payload = [] then .error .insufficient_data
  else
    let skip_field : σ → Option σ := fun s =>
      (bs.readCompressed s).map fun p =>
        if p.1 > 0 then bs.ignoreBytes p.1 p.2 else p.2
    let read_field : σ → Option (List Nat × σ) := fun s =>
      (bs.readCompressed s).bind fun p =>
        if p.1 > 0 then bs.readBytes p.1 p.2 else some ([], p.2)
    let pipeline : Option (chat_packet_data × σ) :=
      (skip_field (bs.init payload)).bind fun s =>
      (read_field s).bind fun sender =>
      (read_field sender.2).bind fun msg =>
      (if bs.unreadBits msg.2 ≥ 8 then bs.readByte msg.2 else some (0, msg.2)).bind fun chan =>
      (if bs.unreadBits chan.2 ≥ 1 then bs.readBool chan.2 else some (false, chan.2)).map fun enemy =>
      (⟨sender.1, msg.1, enemy.1, chan.1, bs.readOffset enemy.2⟩, enemy.2)
    match pipeline with
    | none => .error .bitstream_read_failure
    | some (r, _) => .ok r

/-- Concrete instantiation of the bit-level reader interface (a reader that
always succeeds with zero values and reports no unread bits); used to
evaluate the chat deserializer on concrete inputs. -/
def unitBitStream : BitStreamOps Unit where
  init _ := ()
  readCompressed _ := some (0, ())
  ignoreBytes _ s := s
  readBytes n s := some (List.replicate n 0, s)
  readByte s := some (0, s)
  readBool s := some (false, s)
  unreadBits _ := 0
  readOffset _ := 0

/-! Parser module: variable-length size prefix, packet header, driver. -/

/-- Packet type enumeration `packet_type` (type values 0–8). -/
inductive packet_type where
  | end_marker
  | start_marker
  | aircraft_small
  | chat
  | mpi
  | next_segment
  | ecs
  | snapshot
  | replay_header_info
deriving DecidableEq

/-- Numeric value of each named packet type. -/
def packet_type.val : packet_type → Nat
  | .end_marker => 0
  | .start_marker => 1
  | .aircraft_small => 2
  | .chat => 3
  | .mpi => 4
  | .next_segment => 5
  | .ecs => 6
  | .snapshot => 7
  | .replay_header_info => 8

/-- Result `variable_length_result` of the size-prefix decoder;
`payload_size` is the C++ `int64_t` field. -/
structure variable_length_result where
  payload_size : Int
  prefix_bytes_read : Nat
deriving DecidableEq

/-- Final check of `read_variable_length_size`: a negative computed size is
reported as `⟨-1, n⟩` (the warning branch), a non-negative one is returned
as is. -/
def finalize_size (payload_size : Int) (prefix_bytes_read : Nat) :
    Option variable_length_result :=
  if payload_size < 0 then some ⟨-1, prefix_bytes_read⟩
  else some ⟨payload_size, prefix_bytes_read⟩

/-- Embedding of `read_variable_length_size` over the bytes remaining in
the byte-stream reader.  A read past the end of the buffer yields `none`
("insufficient data"); a first byte with both top bits set yields the
invalid marker `⟨-1, 1⟩`.  All arithmetic mirrors the source: the mode
tests on byte 0, the shift/or/xor size computations of the 2/3/4-byte
forms, and the raw little-endian value of the 5-byte form. -/
def read_variable_length_size (bytes : List Nat) : Option variable_length_result :=
  match bytes with
  | [] => none
  | b0 :: rest =>
    if b0 &&& 0x80 ≠ 0 then
      if b0 &&& 0x40 = 0 then
        finalize_size (((b0 &&& 0x7F : Nat) : Int)) 1
      else
        some ⟨-1, 1⟩
    else if b0 &&& 0x40 ≠ 0 then
      match rest with
      | b1 :: _ =>
        finalize_size (((((b0 <<< 8) ||| b1) ^^^ 0x4000 : Nat) : Int)) 2
      | _ => none
    else if b0 &&& 0x20 ≠ 0 then
      match rest with
      | b1 :: b2 :: _ =>
        finalize_size (((((b0 <<< 16) ||| (b1 <<< 8) ||| b2) ^^^ 0x200000 : Nat) : Int)) 3
      | _ => none
    else if b0 &&& 0x10 ≠ 0 then
      match rest with
      | b1 :: b2 :: b3 :: _ =>
        finalize_size
          (((((b0 <<< 24) ||| (b1 <<< 16) ||| (b2 <<< 8) ||| b3) ^^^ 0x10000000 : Nat) : Int)) 4
      | _ => none
    else
      match rest with
      | b1 :: b2 :: b3 :: b4 :: _ =>
        finalize_size (((le32 b1 b2 b3 b4 : Nat) : Int)) 5
      | _ => none

/-- Upper bound (exclusive) of the sizes representable by each prefix
mode; mode k uses k bytes. -/
def size_mode_bound : Nat → Nat
  | 1 => 0x40
  | 2 => 0x4000
  | 3 => 0x200000
  | 4 => 0x10000000
  | _ => 4294967296

/-- Modelled from the spec: an encoder for the self-describing size
prefix (the repository has no encode path).  For each mode it sets the
mode bits of byte 0 per the §4.3 table and stores the size in the
remaining bits, the 5-byte form storing the size little-endian in bytes
1..4 with byte 0 zero. -/
def encode_variable_length_size (mode : Nat) (s : Nat) : List Nat :=
  match mode with
  | 1 => [0x80 ||| s]
  | 2 => [0x40 ||| (s >>> 8), s &&& 0xFF]
  | 3 => [0x20 ||| (s >>> 16), (s >>> 8) &&& 0xFF, s &&& 0xFF]
  | 4 => [0x10 ||| (s >>> 24), (s >>> 16) &&& 0xFF, (s >>> 8) &&& 0xFF, s &&& 0xFF]
  | _ => [0x00, s &&& 0xFF, (s >>> 8) &&& 0xFF, (s >>> 16) &&& 0xFF, (s >>> 24) &&& 0xFF]

/-- Result `packet_header_result` of the header decoder. -/
structure packet_header_result where
  packet_type_val : Nat
  timestamp_ms : Nat
  bytes_read_for_header : Nat
deriving DecidableEq

/-- Embedding of `read_packet_header_from_stream`.  Bit `0x10` of byte 0
set: delta form, type is byte 0 XOR `0x10`, previous timestamp reused,
1 header byte.  Bit clear: byte 0 is the literal type and 4 little-endian
timestamp bytes follow; if fewer than 4 remain the header is still
returned with the previous timestamp and 1 header byte. -/
def read_packet_header_from_stream (data : List Nat) (last_timestamp_ms : Nat) :
    Option packet_header_result :=
  match data with
  | [] => none
  | b0 :: rest =>
    if b0 &&& 0x10 ≠ 0 then
      some ⟨b0 ^^^ 0x10, last_timestamp_ms, 1⟩
    else
      match rest with
      | t0 :: t1 :: t2 :: t3 :: _ => some ⟨b0, le32 t0 t1 t2 t3, 5⟩
      | _ => some ⟨b0, last_timestamp_ms, 1⟩

/-- Per-packet diagnostic record: the fields `process_stream` prints for
one parsed packet (index, prefix byte count, declared size, incomplete
warning, header byte count, type value, timestamp, actual payload size,
the inline-decoded mpi ids when present, and the bounded hex preview). -/
structure PacketRecord where
  index : Nat
  prefix_bytes_read : Nat
  declared_payload_size : Int
  incomplete : Bool
  header_bytes : Nat
  type_val : Nat
  timestamp_ms : Nat
  actual_payload_size : Nat
  mpi_header : Option (Nat × Nat)
  payload_preview : List Nat
deriving DecidableEq

/-- Why the driver loop ended: `streamEnd` is the clean loop-condition
end-of-data, `cleanEof` the empty-lookahead break, `badSize` the
invalid/unreadable size prefix break, `emptyPayload` the empty-frame
break; `fuelOut` is the recursion bound of the model (never reached when
the fuel exceeds the stream length, since every iteration consumes at
least one byte). -/
inductive ExitReason where
  | fuelOut
  | streamEnd
  | cleanEof
  | badSize
  | emptyPayload
deriving DecidableEq

/-- Outcome of one driver run: the per-packet diagnostics, the total
decompressed bytes processed, and how the loop ended. -/
structure RunResult where
  packets : List PacketRecord
  total_decompressed_bytes : Nat
  exit : ExitReason
deriving DecidableEq

/-- Lines 356–398 of the driver: parse the header of one frame, log the
packet, inline-decode the mpi object/message ids when the type is mpi and
at least 4 payload bytes remain (advancing the preview past them), and
return the new `last_timestamp_ms` (the header timestamp when a header was
parsed, unchanged otherwise). -/
def process_frame (packet_data : List Nat) (last_timestamp_ms : Nat)
    (idx prefix_n : Nat) (declared : Int) (incomplete : Bool) :
    Option PacketRecord × Nat :=
  match read_packet_header_from_stream packet_data last_timestamp_ms with
  | none => (none, last_timestamp_ms)
  | some h =>
    let payload_bytes := packet_data.drop h.bytes_read_for_header
    let mpi_step : Option (Nat × Nat) × List Nat :=
      match h.packet_type_val == packet_type.val .mpi, payload_bytes with
      | true, a :: b :: c :: d :: rest2 => (some (le16 a b, le16 c d), rest2)
      | _, _ => (none, payload_bytes)
    (some ⟨idx, prefix_n, declared, incomplete, h.bytes_read_for_header,
           h.packet_type_val, h.timestamp_ms, payload_bytes.length,
           mpi_step.1, mpi_step.2.take 64⟩,
     h.timestamp_ms)

/-- Driver loop of `process_stream` over the remaining decompressed bytes.
Each iteration reads a 5-byte lookahead, decodes the size prefix, pushes
the unused lookahead back, reads the declared payload, and processes the
frame; `none` or a negative size halts the run, as does an empty read of a
non-empty declared payload.  The fuel argument only bounds the recursion. -/
def run_loop : Nat → List Nat → Nat → Nat → Nat → List PacketRecord → RunResult
  | 0, _, _, _, total, acc => ⟨acc.reverse, total, .fuelOut⟩
  | fuel + 1, stream, last_ts, idx, total, acc =>
    if stream.isEmpty then ⟨acc.reverse, total, .streamEnd⟩
    else
      let size_prefix_bytes := stream.take 5
      if size_prefix_bytes.isEmpty then ⟨acc.reverse, total, .cleanEof⟩
      else
        match read_variable_length_size size_prefix_bytes with
        | none => ⟨acc.reverse, total, .badSize⟩
        | some r =>
          if r.payload_size < 0 then ⟨acc.reverse, total, .badSize⟩
          else
            let stream2 := size_prefix_bytes.drop r.prefix_bytes_read ++ stream.drop 5
            let payload_len := r.payload_size.toNat
            let packet_data := stream2.take payload_len
            let incomplete := packet_data.length != payload_len
            if incomplete && packet_data.isEmpty then ⟨acc.reverse, total, .emptyPayload⟩
            else
              let total2 := total + packet_data.length
              let fr := process_frame packet_data last_ts idx r.prefix_bytes_read
                r.payload_size incomplete
              let acc2 := match fr.1 with
                | some rec => rec :: acc
                | none => acc
              run_loop fuel (stream2.drop payload_len) fr.2 (idx + 1) total2 acc2

/-- Embedding of `process_stream`, as a function of the decompressed byte
sequence produced by the inflate engine.  The fuel `length + 1` suffices
because every iteration consumes at least the one decoded prefix byte. -/
def process_stream (decompressed : List Nat) : RunResult :=
  run_loop (decompressed.length + 1) decompressed 0 0 0 []

/-! Bit-arithmetic helper lemmas. -/

theorem or_low {k : Nat} (a : Nat) {b : Nat} (h : b < 2 ^ k) :
    2 ^ k * a ||| b = 2 ^ k * a + b :=
  (Nat.mul_add_lt_is_or h a).symm

theorem pow_or_low {k b : Nat} (h : b < 2 ^ k) : 2 ^ k ||| b = 2 ^ k + b := by
  have h1 := or_low (k := k) 1 h
  simpa using h1

theorem pow_or_eq_xor {k s : Nat} (h : s < 2 ^ k) : 2 ^ k ||| s = 2 ^ k ^^^ s := by
  apply Nat.eq_of_testBit_eq
  intro i
  simp only [Nat.testBit_or, Nat.testBit_xor, Nat.testBit_two_pow]
  by_cases hik : k = i
  · subst hik
    simp [Nat.testBit_lt_two_pow h]
  · simp [hik]

theorem xor_high_cancel {k s : Nat} (h : s < 2 ^ k) : (2 ^ k + s) ^^^ 2 ^ k = s := by
  rw [← pow_or_low h, pow_or_eq_xor h, Nat.xor_comm (2 ^ k) s, Nat.xor_assoc, Nat.xor_self,
    Nat.xor_zero]

theorem and_pow_eq_zero {a k : Nat} (h : a < 2 ^ k) : a &&& 2 ^ k = 0 := by
  apply Nat.eq_of_testBit_eq
  intro i
  simp only [Nat.testBit_and, Nat.testBit_two_pow, Nat.zero_testBit]
  by_cases hik : k = i
  · subst hik
    simp [Nat.testBit_lt_two_pow h]
  · simp [hik]

theorem and_pow_eq_pow {a k : Nat} (h1 : 2 ^ k ≤ a) (h2 : a < 2 ^ (k + 1)) :
    a &&& 2 ^ k = 2 ^ k := by
  apply Nat.eq_of_testBit_eq
  intro i
  simp only [Nat.testBit_and, Nat.testBit_two_pow]
  by_cases hik : k = i
  · subst hik
    have hbit : a.testBit k = true := by
      rw [Nat.testBit_to_div_mod]
      have hdiv : a / 2 ^ k = 1 := by
        apply Nat.div_eq_of_lt_le
        · simpa using h1
        · rw [Nat.pow_succ] at h2
          omega
      simp [hdiv]
    simp [hbit]
  · simp [hik]

theorem add_pow_and_pow {j k a : Nat} (ha : a < 2 ^ j) (hk : k ≠ j) :
    (2 ^ j + a) &&& 2 ^ k = a &&& 2 ^ k := by
  rw [← pow_or_low ha]
  apply Nat.eq_of_testBit_eq
  intro i
  simp only [Nat.testBit_and, Nat.testBit_or, Nat.testBit_two_pow]
  by_cases hik : k = i
  · subst hik
    have hjk : j ≠ k := fun hh => hk hh.symm
    simp [hjk]
  · simp [hik]

theorem add_pow_and_mask {k s : Nat} (h : s < 2 ^ k) : (2 ^ k + s) &&& (2 ^ k - 1) = s := by
  rw [Nat.and_pow_two_sub_one_eq_mod, Nat.add_mod_left, Nat.mod_eq_of_lt h]

theorem finalize_size_ofNat (v n : Nat) :
    finalize_size (v : Int) n = some ⟨(v : Int), n⟩ := by
  have hv : ¬ ((v : Int) < 0) := by omega
  rw [finalize_size, if_neg hv]

/-! Direct-formula lemmas of the size-prefix decoder, one per mode. -/

theorem decode_mode1 (b0 : Nat) (rest : List Nat)
    (h80 : b0 &&& 0x80 ≠ 0) (h40 : b0 &&& 0x40 = 0) :
    read_variable_length_size (b0 :: rest) = some ⟨((b0 &&& 0x7F : Nat) : Int), 1⟩ := by
  simp only [read_variable_length_size]
  rw [if_pos h80, if_pos h40, finalize_size_ofNat]

theorem decode_mode2 (b0 b1 : Nat) (rest : List Nat)
    (h80 : b0 &&& 0x80 = 0) (h40 : b0 &&& 0x40 ≠ 0) :
    read_variable_length_size (b0 :: b1 :: rest) =
      some ⟨((((b0 <<< 8) ||| b1) ^^^ 0x4000 : Nat) : Int), 2⟩ := by
  simp only [read_variable_length_size]
  rw [if_neg (by simp [h80]), if_pos h40, finalize_size_ofNat]

theorem decode_mode3 (b0 b1 b2 : Nat) (rest : List Nat)
    (h80 : b0 &&& 0x80 = 0) (h40 : b0 &&& 0x40 = 0) (h20 : b0 &&& 0x20 ≠ 0) :
    read_variable_length_size (b0 :: b1 :: b2 :: rest) =
      some ⟨((((b0 <<< 16) ||| (b1 <<< 8) ||| b2) ^^^ 0x200000 : Nat) : Int), 3⟩ := by
  simp only [read_variable_length_size]
  rw [if_neg (by simp [h80]), if_neg (by simp [h40]), if_pos h20, finalize_size_ofNat]

theorem decode_mode4 (b0 b1 b2 b3 : Nat) (rest : List Nat)
    (h80 : b0 &&& 0x80 = 0) (h40 : b0 &&& 0x40 = 0) (h20 : b0 &&& 0x20 = 0)
    (h10 : b0 &&& 0x10 ≠ 0) :
    read_variable_length_size (b0 :: b1 :: b2 :: b3 :: rest) =
      some ⟨((((b0 <<< 24) ||| (b1 <<< 16) ||| (b2 <<< 8) ||| b3) ^^^ 0x10000000 : Nat) : Int), 4⟩ := by
  simp only [read_variable_length_size]
  rw [if_neg (by simp [h80]), if_neg (by simp [h40]), if_neg (by simp [h20]), if_pos h10,
    finalize_size_ofNat]

theorem decode_mode5 (b0 b1 b2 b3 b4 : Nat) (rest : List Nat)
    (h80 : b0 &&& 0x80 = 0) (h40 : b0 &&& 0x40 = 0) (h20 : b0 &&& 0x20 = 0)
    (h10 : b0 &&& 0x10 = 0) :
    read_variable_length_size (b0 :: b1 :: b2 :: b3 :: b4 :: rest) =
      some ⟨((le32 b1 b2 b3 b4 : Nat) : Int), 5⟩ := by
  simp only [read_variable_length_size]
  rw [if_neg (by simp [h80]), if_neg (by simp [h40]), if_neg (by simp [h20]),
    if_neg (by simp [h10]), finalize_size_ofNat]

theorem decode_invalid (b0 : Nat) (rest : List Nat) (h : b0 &&& 0xC0 = 0xC0) :
    read_variable_length_size (b0 :: rest) = some ⟨-1, 1⟩ := by
  have h80 : b0 &&& 0x80 = 0x80 := by
    rw [show (0x80 : Nat) = 0xC0 &&& 0x80 by decide, ← Nat.and_assoc, h]
  have h40 : b0 &&& 0x40 = 0x40 := by
    rw [show (0x40 : Nat) = 0xC0 &&& 0x40 by decide, ← Nat.and_assoc, h]
  simp only [read_variable_length_size]
  rw [if_pos (by rw [h80]; decide), if_neg (by rw [h40]; decide)]

/-! Literal-argument forms of the helper lemmas, taking the evaluated
power of two as an explicit equation. -/

theorem pow_or_low2 {k p : Nat} (hp : 2 ^ k = p) {b : Nat} (h : b < p) : p ||| b = p + b := by
  subst hp; exact pow_or_low h

theorem or_low2 {k p : Nat} (a : Nat) (hp : 2 ^ k = p) {b : Nat} (h : b < p) :
    p * a ||| b = p * a + b := by
  subst hp; exact or_low a h

theorem xor_high_cancel2 {k p s : Nat} (hp : 2 ^ k = p) (h : s < p) : (p + s) ^^^ p = s := by
  subst hp; exact xor_high_cancel h

theorem and_pow_eq_zero2 {k p a : Nat} (hp : 2 ^ k = p) (h : a < p) : a &&& p = 0 := by
  subst hp; exact and_pow_eq_zero h

theorem and_pow_eq_pow2 {k p a : Nat} (hp : 2 ^ k = p) (h1 : p ≤ a) (h2 : a < 2 * p) :
    a &&& p = p := by
  subst hp
  exact and_pow_eq_pow h1 (by rw [Nat.pow_succ]; omega)

theorem add_pow_and_pow2 {j k pj pk a : Nat} (hpj : 2 ^ j = pj) (hpk : 2 ^ k = pk)
    (ha : a < pj) (hk : k ≠ j) : (pj + a) &&& pk = a &&& pk := by
  subst hpj; subst hpk; exact add_pow_and_pow ha hk

theorem add_pow_and_mask2 {k p q s : Nat} (hp : 2 ^ k = p) (hq : q + 1 = p) (h : s < p) :
    (p + s) &&& q = s := by
  subst hp
  have hq2 : q = 2 ^ k - 1 := by omega
  subst hq2
  exact add_pow_and_mask h

theorem and_mask_mod2 {k p q : Nat} (hp : 2 ^ k = p) (hq : q + 1 = p) (a : Nat) :
    a &&& q = a % p := by
  subst hp
  have hq2 : q = 2 ^ k - 1 := by omega
  subst hq2
  exact Nat.and_pow_two_sub_one_eq_mod a k

theorem shiftRight2 {n p : Nat} (hp : 2 ^ n = p) (a : Nat) : a >>> n = a / p := by
  subst hp; exact Nat.shiftRight_eq_div_pow a n

theorem shiftLeft2 {n p : Nat} (hp : 2 ^ n = p) (a : Nat) : a <<< n = a * p := by
  subst hp; exact Nat.shiftLeft_eq a n

/-! Normal forms of the encoder bytes and the decoded values, per mode. -/

theorem encode1_eq {s : Nat} (h : s < 64) :
    encode_variable_length_size 1 s = [128 + s] := by
  simp only [encode_variable_length_size]
  rw [pow_or_low2 (show (2 : Nat) ^ 7 = 128 by norm_num) (by omega)]

theorem encode2_eq {s : Nat} (h : s < 16384) :
    encode_variable_length_size 2 s = [64 + s / 256, s % 256] := by
  simp only [encode_variable_length_size]
  rw [shiftRight2 (show (2 : Nat) ^ 8 = 256 by norm_num),
    pow_or_low2 (show (2 : Nat) ^ 6 = 64 by norm_num) (by omega),
    and_mask_mod2 (q := 255) (show (2 : Nat) ^ 8 = 256 by norm_num) (by norm_num)]

theorem encode3_eq {s : Nat} (h : s < 2097152) :
    encode_variable_length_size 3 s = [32 + s / 65536, s / 256 % 256, s % 256] := by
  simp only [encode_variable_length_size]
  rw [shiftRight2 (show (2 : Nat) ^ 16 = 65536 by norm_num),
    shiftRight2 (show (2 : Nat) ^ 8 = 256 by norm_num),
    pow_or_low2 (show (2 : Nat) ^ 5 = 32 by norm_num) (by omega)]
  simp only [and_mask_mod2 (q := 255) (show (2 : Nat) ^ 8 = 256 by norm_num) (by norm_num)]

theorem encode4_eq {s : Nat} (h : s < 268435456) :
    encode_variable_length_size 4 s
      = [16 + s / 16777216, s / 65536 % 256, s / 256 % 256, s % 256] := by
  simp only [encode_variable_length_size]
  rw [shiftRight2 (show (2 : Nat) ^ 24 = 16777216 by norm_num),
    shiftRight2 (show (2 : Nat) ^ 16 = 65536 by norm_num),
    shiftRight2 (show (2 : Nat) ^ 8 = 256 by norm_num),
    pow_or_low2 (show (2 : Nat) ^ 4 = 16 by norm_num) (by omega)]
  simp only [and_mask_mod2 (q := 255) (show (2 : Nat) ^ 8 = 256 by norm_num) (by norm_num)]

theorem encode5_eq (s : Nat) :
    encode_variable_length_size 5 s
      = [0, s % 256, s / 256 % 256, s / 65536 % 256, s / 16777216 % 256] := by
  simp only [encode_variable_length_size]
  rw [shiftRight2 (show (2 : Nat) ^ 24 = 16777216 by norm_num),
    shiftRight2 (show (2 : Nat) ^ 16 = 65536 by norm_num),
    shiftRight2 (show (2 : Nat) ^ 8 = 256 by norm_num)]
  simp only [and_mask_mod2 (q := 255) (show (2 : Nat) ^ 8 = 256 by norm_num) (by norm_num)]

theorem val1 {s : Nat} (h : s < 64) : (128 + s) &&& 0x7F = s :=
  add_pow_and_mask2 (show (2 : Nat) ^ 7 = 128 by norm_num) (by norm_num) (by omega)

theorem val2 {s : Nat} (h : s < 16384) :
    ((64 + s / 256) <<< 8 ||| s % 256) ^^^ 0x4000 = s := by
  rw [shiftLeft2 (show (2 : Nat) ^ 8 = 256 by norm_num),
    show (64 + s / 256) * 256 = 256 * (64 + s / 256) by ring,
    or_low2 _ (show (2 : Nat) ^ 8 = 256 by norm_num) (show s % 256 < 256 by omega),
    show 256 * (64 + s / 256) + s % 256 = 16384 + s by omega,
    xor_high_cancel2 (show (2 : Nat) ^ 14 = 16384 by norm_num) (by omega)]

theorem val3 {s : Nat} (h : s < 2097152) :
    ((32 + s / 65536) <<< 16 ||| (s / 256 % 256) <<< 8 ||| s % 256) ^^^ 0x200000 = s := by
  rw [shiftLeft2 (show (2 : Nat) ^ 16 = 65536 by norm_num),
    shiftLeft2 (show (2 : Nat) ^ 8 = 256 by norm_num),
    show (32 + s / 65536) * 65536 = 65536 * (32 + s / 65536) by ring,
    or_low2 _ (show (2 : Nat) ^ 16 = 65536 by norm_num)
      (show s / 256 % 256 * 256 < 65536 by omega),
    show 65536 * (32 + s / 65536) + s / 256 % 256 * 256
      = 256 * (256 * (32 + s / 65536) + s / 256 % 256) by ring,
    or_low2 _ (show (2 : Nat) ^ 8 = 256 by norm_num) (show s % 256 < 256 by omega),
    show 256 * (256 * (32 + s / 65536) + s / 256 % 256) + s % 256 = 2097152 + s by omega,
    xor_high_cancel2 (show (2 : Nat) ^ 21 = 2097152 by norm_num) (by omega)]

theorem val4 {s : Nat} (h : s < 268435456) :
    ((16 + s / 16777216) <<< 24 ||| (s / 65536 % 256) <<< 16 ||| (s / 256 % 256) <<< 8
      ||| s % 256) ^^^ 0x10000000 = s := by
  rw [shiftLeft2 (show (2 : Nat) ^ 24 = 16777216 by norm_num),
    shiftLeft2 (show (2 : Nat) ^ 16 = 65536 by norm_num),
    shiftLeft2 (show (2 : Nat) ^ 8 = 256 by norm_num),
    show (16 + s / 16777216) * 16777216 = 16777216 * (16 + s / 16777216) by ring,
    or_low2 _ (show (2 : Nat) ^ 24 = 16777216 by norm_num)
      (show s / 65536 % 256 * 65536 < 16777216 by omega),
    show 16777216 * (16 + s / 16777216) + s / 65536 % 256 * 65536
      = 65536 * (256 * (16 + s / 16777216) + s / 65536 % 256) by ring,
    or_low2 _ (show (2 : Nat) ^ 16 = 65536 by norm_num)
      (show s / 256 % 256 * 256 < 65536 by omega),
    show 65536 * (256 * (16 + s / 16777216) + s / 65536 % 256) + s / 256 % 256 * 256
      = 256 * (256 * (256 * (16 + s / 16777216) + s / 65536 % 256) + s / 256 % 256) by ring,
    or_low2 _ (show (2 : Nat) ^ 8 = 256 by norm_num) (show s % 256 < 256 by omega),
    show 256 * (256 * (256 * (16 + s / 16777216) + s / 65536 % 256) + s / 256 % 256) + s % 256
      = 268435456 + s by omega,
    xor_high_cancel2 (show (2 : Nat) ^ 28 = 268435456 by norm_num) (by omega)]

theorem val5 {s : Nat} (h : s < 4294967296) :
    le32 (s % 256) (s / 256 % 256) (s / 65536 % 256) (s / 16777216 % 256) = s := by
  simp only [le32]
  omega

/-! Roundtrip lemmas, one per mode. -/

theorem roundtrip1 {s : Nat} (h : s < 64) (rest : List Nat) :
    read_variable_length_size (encode_variable_length_size 1 s ++ rest)
      = some ⟨(s : Int), 1⟩ := by
  rw [encode1_eq h]
  simp only [List.cons_append, List.nil_append]
  have h80 : (128 + s) &&& 0x80 ≠ 0 := by
    rw [and_pow_eq_pow2 (show (2 : Nat) ^ 7 = 128 by norm_num) (by omega) (by omega)]
    norm_num
  have h40 : (128 + s) &&& 0x40 = 0 := by
    rw [add_pow_and_pow2 (show (2 : Nat) ^ 7 = 128 by norm_num)
        (show (2 : Nat) ^ 6 = 64 by norm_num) (by omega) (by norm_num),
      and_pow_eq_zero2 (show (2 : Nat) ^ 6 = 64 by norm_num) (by omega)]
  rw [decode_mode1 _ _ h80 h40, val1 h]

theorem roundtrip2 {s : Nat} (h : s < 16384) (rest : List Nat) :
    read_variable_length_size (encode_variable_length_size 2 s ++ rest)
      = some ⟨(s : Int), 2⟩ := by
  rw [encode2_eq h]
  simp only [List.cons_append, List.nil_append]
  have h80 : (64 + s / 256) &&& 0x80 = 0 :=
    and_pow_eq_zero2 (show (2 : Nat) ^ 7 = 128 by norm_num) (by omega)
  have h40 : (64 + s / 256) &&& 0x40 ≠ 0 := by
    rw [and_pow_eq_pow2 (show (2 : Nat) ^ 6 = 64 by norm_num) (by omega) (by omega)]
    norm_num
  rw [decode_mode2 _ _ _ h80 h40, val2 h]

theorem roundtrip3 {s : Nat} (h : s < 2097152) (rest : List Nat) :
    read_variable_length_size (encode_variable_length_size 3 s ++ rest)
      = some ⟨(s : Int), 3⟩ := by
  rw [encode3_eq h]
  simp only [List.cons_append, List.nil_append]
  have h80 : (32 + s / 65536) &&& 0x80 = 0 :=
    and_pow_eq_zero2 (show (2 : Nat) ^ 7 = 128 by norm_num) (by omega)
  have h40 : (32 + s / 65536) &&& 0x40 = 0 :=
    and_pow_eq_zero2 (show (2 : Nat) ^ 6 = 64 by norm_num) (by omega)
  have h20 : (32 + s / 65536) &&& 0x20 ≠ 0 := by
    rw [and_pow_eq_pow2 (show (2 : Nat) ^ 5 = 32 by norm_num) (by omega) (by omega)]
    norm_num
  rw [decode_mode3 _ _ _ _ h80 h40 h20, val3 h]

theorem roundtrip4 {s : Nat} (h : s < 268435456) (rest : List Nat) :
    read_variable_length_size (encode_variable_length_size 4 s ++ rest)
      = some ⟨(s : Int), 4⟩ := by
  rw [encode4_eq h]
  simp only [List.cons_append, List.nil_append]
  have h80 : (16 + s / 16777216) &&& 0x80 = 0 :=
    and_pow_eq_zero2 (show (2 : Nat) ^ 7 = 128 by norm_num) (by omega)
  have h40 : (16 + s / 16777216) &&& 0x40 = 0 :=
    and_pow_eq_zero2 (show (2 : Nat) ^ 6 = 64 by norm_num) (by omega)
  have h20 : (16 + s / 16777216) &&& 0x20 = 0 :=
    and_pow_eq_zero2 (show (2 : Nat) ^ 5 = 32 by norm_num) (by omega)
  have h10 : (16 + s / 16777216) &&& 0x10 ≠ 0 := by
    rw [and_pow_eq_pow2 (show (2 : Nat) ^ 4 = 16 by norm_num) (by omega) (by omega)]
    norm_num
  rw [decode_mode4 _ _ _ _ _ h80 h40 h20 h10, val4 h]

theorem roundtrip5 {s : Nat} (h : s < 4294967296) (rest : List Nat) :
    read_variable_length_size (encode_variable_length_size 5 s ++ rest)
      = some ⟨(s : Int), 5⟩ := by
  rw [encode5_eq]
  simp only [List.cons_append, List.nil_append]
  rw [decode_mode5 _ _ _ _ _ _ (by decide) (by decide) (by decide) (by decide), val5 h]

/-- Driver halt on an invalid size prefix: one unfolding of the loop on a
stream whose first byte has both top bits set. -/
theorem run_loop_invalid_first (fuel : Nat) (b0 : Nat) (rest : List Nat)
    (h : b0 &&& 0xC0 = 0xC0) (last_ts idx total : Nat) (acc : List PacketRecord) :
    run_loop (fuel + 1) (b0 :: rest) last_ts idx total acc
      = ⟨acc.reverse, total, .badSize⟩ := by
  rw [run_loop]
  simp only [List.isEmpty_cons, List.take_succ_cons, decode_invalid _ _ h]
  norm_num

/-! Claim theorems. -/

/-- C3: the variable-length size decoder computes, for each mode selected
by the leading bits of byte 0, exactly the documented size formula while
consuming exactly the documented number of prefix bytes (1-byte form:
low 7 bits; 2/3/4-byte forms: big-endian assembly XOR the mode bias;
5-byte form: raw little-endian value of bytes 1..4); and encoding any size
within a mode's range and decoding it recovers the size and the prefix
length. -/
theorem size_decoder_formulas_and_roundtrip :
    (∀ b0 rest, b0 &&& 0x80 ≠ 0 → b0 &&& 0x40 = 0 →
      read_variable_length_size (b0 :: rest) = some ⟨((b0 &&& 0x7F : Nat) : Int), 1⟩) ∧
    (∀ b0 b1 rest, b0 &&& 0x80 = 0 → b0 &&& 0x40 ≠ 0 →
      read_variable_length_size (b0 :: b1 :: rest) =
        some ⟨((((b0 <<< 8) ||| b1) ^^^ 0x4000 : Nat) : Int), 2⟩) ∧
    (∀ b0 b1 b2 rest, b0 &&& 0x80 = 0 → b0 &&& 0x40 = 0 → b0 &&& 0x20 ≠ 0 →
      read_variable_length_size (b0 :: b1 :: b2 :: rest) =
        some ⟨((((b0 <<< 16) ||| (b1 <<< 8) ||| b2) ^^^ 0x200000 : Nat) : Int), 3⟩) ∧
    (∀ b0 b1 b2 b3 rest, b0 &&& 0x80 = 0 → b0 &&& 0x40 = 0 → b0 &&& 0x20 = 0 →
        b0 &&& 0x10 ≠ 0 →
      read_variable_length_size (b0 :: b1 :: b2 :: b3 :: rest) =
        some ⟨((((b0 <<< 24) ||| (b1 <<< 16) ||| (b2 <<< 8) ||| b3) ^^^ 0x10000000 : Nat) : Int),
          4⟩) ∧
    (∀ b0 b1 b2 b3 b4 rest, b0 &&& 0x80 = 0 → b0 &&& 0x40 = 0 → b0 &&& 0x20 = 0 →
        b0 &&& 0x10 = 0 →
      read_variable_length_size (b0 :: b1 :: b2 :: b3 :: b4 :: rest) =
        some ⟨((le32 b1 b2 b3 b4 : Nat) : Int), 5⟩) ∧
    (∀ mode s rest, 1 ≤ mode → mode ≤ 5 → s < size_mode_bound mode →
      read_variable_length_size (encode_variable_length_size mode s ++ rest) =
        some ⟨(s : Int), mode⟩) := by
  refine ⟨decode_mode1, decode_mode2, decode_mode3, decode_mode4, decode_mode5, ?_⟩
  intro mode s rest h1 h5 hs
  interval_cases mode
  · exact roundtrip1 (by simpa [size_mode_bound] using hs) rest
  · exact roundtrip2 (by simpa [size_mode_bound] using hs) rest
  · exact roundtrip3 (by simpa [size_mode_bound] using hs) rest
  · exact roundtrip4 (by simpa [size_mode_bound] using hs) rest
  · exact roundtrip5 (by simpa [size_mode_bound] using hs) rest

/-- Witness for C3: each conjunct of the theorem applied at concrete
bytes and sizes. -/
theorem size_decoder_formulas_and_roundtrip_witness :
    read_variable_length_size [0x85] = some ⟨((0x85 &&& 0x7F : Nat) : Int), 1⟩ ∧
    read_variable_length_size [0x44, 0x01] =
      some ⟨((((0x44 <<< 8) ||| 0x01 : Nat) ^^^ 0x4000 : Nat) : Int), 2⟩ ∧
    read_variable_length_size [0x21, 0x02, 0x03] =
      some ⟨((((0x21 <<< 16) ||| (0x02 <<< 8) ||| 0x03 : Nat) ^^^ 0x200000 : Nat) : Int), 3⟩ ∧
    read_variable_length_size [0x11, 0x02, 0x03, 0x04] =
      some ⟨((((0x11 <<< 24) ||| (0x02 <<< 16) ||| (0x03 <<< 8) ||| 0x04 : Nat)
        ^^^ 0x10000000 : Nat) : Int), 4⟩ ∧
    read_variable_length_size [0x07, 0x10, 0x00, 0x00, 0x00] =
      some ⟨((le32 0x10 0x00 0x00 0x00 : Nat) : Int), 5⟩ ∧
    read_variable_length_size (encode_variable_length_size 2 1000 ++ [9]) =
      some ⟨(1000 : Int), 2⟩ :=
  ⟨size_decoder_formulas_and_roundtrip.1 0x85 [] (by decide) (by decide),
   size_decoder_formulas_and_roundtrip.2.1 0x44 0x01 [] (by decide) (by decide),
   size_decoder_formulas_and_roundtrip.2.2.1 0x21 0x02 0x03 [] (by decide) (by decide) (by decide),
   size_decoder_formulas_and_roundtrip.2.2.2.1 0x11 0x02 0x03 0x04 []
     (by decide) (by decide) (by decide) (by decide),
   size_decoder_formulas_and_roundtrip.2.2.2.2.1 0x07 0x10 0x00 0x00 0x00 []
     (by decide) (by decide) (by decide) (by decide),
   size_decoder_formulas_and_roundtrip.2.2.2.2.2 2 1000 [9]
     (by norm_num) (by norm_num) (by norm_num [size_mode_bound])⟩

/-- C10: a decoded size-prefix result can only carry a negative
payload size in the invalid-prefix case — byte 0 with both top bits set —
where it is exactly `⟨-1, 1⟩`; the negative-size warning branch after the
XOR corrections is unreachable. -/
theorem negative_size_only_for_invalid (bytes : List Nat) (sz : Int) (n : Nat)
    (hr : read_variable_length_size bytes = some ⟨sz, n⟩) (hneg : sz < 0) :
    ∃ b0 rest, bytes = b0 :: rest ∧ b0 &&& 0x80 ≠ 0 ∧ b0 &&& 0x40 ≠ 0 ∧
      sz = -1 ∧ n = 1 := by
  rcases bytes with _ | ⟨b0, rest⟩
  · simp [read_variable_length_size] at hr
  · simp only [read_variable_length_size] at hr
    split at hr
    next h80 =>
      split at hr
      next h40 =>
        simp only [finalize_size_ofNat, Option.some.injEq,
          variable_length_result.mk.injEq] at hr
        omega
      next h40 =>
        simp only [Option.some.injEq, variable_length_result.mk.injEq] at hr
        exact ⟨b0, rest, rfl, h80, h40, by omega, by omega⟩
    next h80 =>
      split at hr
      next h40 =>
        rcases rest with _ | ⟨b1, rest2⟩
        · simp at hr
        · simp only [finalize_size_ofNat, Option.some.injEq,
            variable_length_result.mk.injEq] at hr
          omega
      next h40 =>
        split at hr
        next h20 =>
          rcases rest with _ | ⟨b1, _ | ⟨b2, rest2⟩⟩ <;> try simp at hr
          simp only [finalize_size_ofNat, Option.some.injEq,
            variable_length_result.mk.injEq] at hr
          omega
        next h20 =>
          split at hr
          next h10 =>
            rcases rest with _ | ⟨b1, _ | ⟨b2, _ | ⟨b3, rest2⟩⟩⟩ <;> try simp at hr
            simp only [finalize_size_ofNat, Option.some.injEq,
              variable_length_result.mk.injEq] at hr
            omega
          next h10 =>
            rcases rest with _ | ⟨b1, _ | ⟨b2, _ | ⟨b3, _ | ⟨b4, rest2⟩⟩⟩⟩ <;> try simp at hr
            simp only [finalize_size_ofNat, Option.some.injEq,
              variable_length_result.mk.injEq] at hr
            omega

/-- Witness for C10: the theorem applied at the concrete invalid prefix
byte `0xC0`. -/
theorem negative_size_only_for_invalid_witness :
    ∃ b0 rest, [0xC0, 0x55] = b0 :: rest ∧ b0 &&& 0x80 ≠ 0 ∧ b0 &&& 0x40 ≠ 0 ∧
      (-1 : Int) = -1 ∧ 1 = 1 :=
  negative_size_only_for_invalid [0xC0, 0x55] (-1) 1 (by decide) (by decide)

/-- C4: a first size-prefix byte with leading bits 11 is rejected as the
invalid result `⟨-1, 1⟩` whatever the following bytes are, and the driver
run on such a stream halts immediately with zero packets reported. -/
theorem invalid_prefix_rejected_and_halts :
    (∀ b0 rest, b0 &&& 0xC0 = 0xC0 →
      read_variable_length_size (b0 :: rest) = some ⟨-1, 1⟩) ∧
    (∀ b0 rest, b0 &&& 0xC0 = 0xC0 →
      process_stream (b0 :: rest) = ⟨[], 0, .badSize⟩) := by
  refine ⟨decode_invalid, ?_⟩
  intro b0 rest h
  exact run_loop_invalid_first (rest.length + 1) b0 rest h 0 0 0 []

/-- Witness for C4: the theorem applied at the concrete stream
`C0 07`. -/
theorem invalid_prefix_rejected_and_halts_witness :
    read_variable_length_size [0xC0, 0x07] = some ⟨-1, 1⟩ ∧
    process_stream [0xC0, 0x07] = ⟨[], 0, .badSize⟩ :=
  ⟨invalid_prefix_rejected_and_halts.1 0xC0 [0x07] (by decide),
   invalid_prefix_rejected_and_halts.2 0xC0 [0x07] (by decide)⟩

/-- C5: delta-form headers (bit `0x10` of byte 0 set) decode the type as
byte 0 XOR `0x10` and leave `last_timestamp_ms` unchanged through frame
processing; explicit-form headers with all 4 timestamp bytes present
always overwrite it with their decoded little-endian value. -/
theorem timestamp_update_policy :
    (∀ b0 rest last_ts idx n d inc, b0 &&& 0x10 ≠ 0 →
      read_packet_header_from_stream (b0 :: rest) last_ts = some ⟨b0 ^^^ 0x10, last_ts, 1⟩ ∧
      (process_frame (b0 :: rest) last_ts idx n d inc).2 = last_ts) ∧
    (∀ b0 t0 t1 t2 t3 r2 last_ts idx n d inc, b0 &&& 0x10 = 0 →
      read_packet_header_from_stream (b0 :: t0 :: t1 :: t2 :: t3 :: r2) last_ts =
        some ⟨b0, le32 t0 t1 t2 t3, 5⟩ ∧
      (process_frame (b0 :: t0 :: t1 :: t2 :: t3 :: r2) last_ts idx n d inc).2
        = le32 t0 t1 t2 t3) := by
  constructor
  · intro b0 rest last_ts idx n d inc h
    have hh : read_packet_header_from_stream (b0 :: rest) last_ts
        = some ⟨b0 ^^^ 0x10, last_ts, 1⟩ := by
      simp only [read_packet_header_from_stream]
      rw [if_pos h]
    refine ⟨hh, ?_⟩
    simp only [process_frame, hh]
  · intro b0 t0 t1 t2 t3 r2 last_ts idx n d inc h
    have hh : read_packet_header_from_stream (b0 :: t0 :: t1 :: t2 :: t3 :: r2) last_ts
        = some ⟨b0, le32 t0 t1 t2 t3, 5⟩ := by
      simp only [read_packet_header_from_stream]
      rw [if_neg (by simp [h])]
    refine ⟨hh, ?_⟩
    simp only [process_frame, hh]

/-- Witness for C5: the theorem applied at a delta-form header byte
`0x10` and at an explicit-form header with 4 timestamp bytes. -/
theorem timestamp_update_policy_witness :
    (read_packet_header_from_stream [0x10, 1, 2, 3] 7 = some ⟨0x10 ^^^ 0x10, 7, 1⟩ ∧
      (process_frame [0x10, 1, 2, 3] 7 0 1 4 false).2 = 7) ∧
    (read_packet_header_from_stream [0x00, 1, 0, 0, 0, 9] 7 = some ⟨0, le32 1 0 0 0, 5⟩ ∧
      (process_frame [0x00, 1, 0, 0, 0, 9] 7 0 1 6 false).2 = le32 1 0 0 0) :=
  ⟨timestamp_update_policy.1 0x10 [1, 2, 3] 7 0 1 4 false (by decide),
   timestamp_update_policy.2 0x00 1 0 0 0 [9] 7 0 1 6 false (by decide)⟩

/-- C6: an explicit-form header byte (bit `0x10` clear) followed by fewer
than 4 bytes does not fail: the header is still returned with the literal
type from byte 0, the previously-held timestamp, and 1 header byte. -/
theorem truncated_timestamp_tolerated (b0 : Nat) (rest : List Nat) (last_ts : Nat)
    (h10 : b0 &&& 0x10 = 0) (hshort : rest.length < 4) :
    read_packet_header_from_stream (b0 :: rest) last_ts = some ⟨b0, last_ts, 1⟩ := by
  simp only [read_packet_header_from_stream]
  rw [if_neg (by simp [h10])]
  rcases rest with _ | ⟨a, _ | ⟨b, _ | ⟨c, _ | ⟨d, t⟩⟩⟩⟩
  · rfl
  · rfl
  · rfl
  · rfl
  · simp only [List.length_cons] at hshort
    omega

/-- Witness for C6: the theorem applied at an explicit-form header with
only 2 bytes after the type byte. -/
theorem truncated_timestamp_tolerated_witness :
    read_packet_header_from_stream [0x00, 1, 2] 7 = some ⟨0x00, 7, 1⟩ :=
  truncated_timestamp_tolerated 0x00 [1, 2] 7 (by decide) (by decide)

/-- C1 counterexample: on the decompressed stream `04 10 00 00 00` the
first byte has leading bits 0000, so the decoder takes the 5-byte form
(declared size 16, the little-endian value of the next four bytes), the
frame read then returns nothing, and the run stops with zero packets
reported — not one end_marker packet followed by clean end-of-data. -/
theorem scenarioA_as_stated_fails :
    process_stream [0x04, 0x10, 0x00, 0x00, 0x00] = ⟨[], 0, .emptyPayload⟩ := by decide

/-- C1 amended: with the first prefix byte `0x84` (the 1-byte form
requires the top bit set), the five-byte decompressed stream
`84 10 00 00 00` produces exactly one reported packet: 1-byte size prefix
of size 4, delta-form header (1 header byte), type end_marker, timestamp
still the seed 0, and the run then ends cleanly at end-of-data. -/
theorem scenarioA_amended :
    process_stream [0x84, 0x10, 0x00, 0x00, 0x00] =
      ⟨[⟨0, 1, 4, false, 1, packet_type.val .end_marker, 0, 3, none, [0, 0, 0]⟩], 4,
        .streamEnd⟩ := by decide

/-- C2 at its failing input: the driver does not dispatch payloads to the
per-type deserializers.  On the stream `81 13 81 10` the first frame is a
chat packet whose empty remaining payload would make the chat deserializer
fail with `insufficient_data`, yet the run continues and still processes a
second frame (the end_marker packet). -/
theorem driver_continues_past_failing_chat :
    (process_stream [0x81, 0x13, 0x81, 0x10]).packets.map
        (fun r => (r.type_val, r.actual_payload_size)) =
      [(packet_type.val .chat, 0), (packet_type.val .end_marker, 0)] ∧
    (∀ (σ : Type) (bs : BitStreamOps σ),
      deserialize_chat_packet bs [] = .error .insufficient_data) := by
  refine ⟨by decide, ?_⟩
  intro σ bs
  rfl

/-- C9: the driver is a deterministic function of its input: for any
inflate function, two runs over byte-identical compressed input produce
identical diagnostic output. -/
theorem process_stream_deterministic (inflate : List Nat → List Nat)
    (c1 c2 : List Nat) (h : c1 = c2) :
    process_stream (inflate c1) = process_stream (inflate c2) := by
  rw [h]

/-- Witness for C9: the theorem applied to two copies of a concrete
compressed input. -/
theorem process_stream_deterministic_witness :
    process_stream (id [0x81, 0x10]) = process_stream (id [0x81, 0x10]) :=
  process_stream_deterministic id [0x81, 0x10] [0x81, 0x10] rfl

/-- C7: the mpi deserializer fails with `insufficient_data` exactly on
payloads shorter than 4 bytes; otherwise `object_id` and `message_id` are
the two little-endian 16-bit fields and the remaining payload is the
untouched bytes after the first 4 — empty when the payload is exactly
4 bytes long. -/
theorem mpi_deserializer_contract (payload : List Nat) :
    (deserialize_mpi_packet payload = .error .insufficient_data ↔ payload.length < 4) ∧
    (∀ a b c d rest, payload = a :: b :: c :: d :: rest →
      deserialize_mpi_packet payload = .ok ⟨le16 a b, le16 c d, rest⟩) := by
  constructor
  · constructor
    · intro h
      rcases payload with _ | ⟨a, _ | ⟨b, _ | ⟨c, _ | ⟨d, r⟩⟩⟩⟩
      · simp
      · simp
      · simp
      · simp
      · simp [deserialize_mpi_packet] at h
    · intro h
      rcases payload with _ | ⟨a, _ | ⟨b, _ | ⟨c, _ | ⟨d, r⟩⟩⟩⟩
      · rfl
      · rfl
      · rfl
      · rfl
      · simp only [List.length_cons] at h
        omega
  · intro a b c d rest h
    subst h
    rfl

/-- Witness for C7: the theorem applied at a 3-byte payload (too short)
and at a 5-byte payload. -/
theorem mpi_deserializer_contract_witness :
    (deserialize_mpi_packet [1, 2, 3] = .error .insufficient_data ↔
      ([1, 2, 3] : List Nat).length < 4) ∧
    deserialize_mpi_packet [1, 2, 3, 4, 5] = .ok ⟨le16 1 2, le16 3 4, [5]⟩ :=
  ⟨(mpi_deserializer_contract [1, 2, 3]).1,
   (mpi_deserializer_contract [1, 2, 3, 4, 5]).2 1 2 3 4 [5] rfl⟩


/-- Equality of the source flag phase and the spec-side flag pipeline, for
any already-read sender and message and any bit-stream state. -/
theorem chat_flags_eq {σ : Type} (bs : BitStreamOps σ) (sender msg : List Nat) (s : σ) :
    (match chat_read_flags bs s with
      | none => (Except.error deserialize_error.bitstream_read_failure :
          Except deserialize_error chat_packet_data)
      | some ((chan, enemy), s2) => Except.ok ⟨sender, msg, enemy, chan, bs.readOffset s2⟩)
    = match ((if bs.unreadBits s ≥ 8 then bs.readByte s else some (0, s)).bind fun chan =>
        (if bs.unreadBits chan.2 ≥ 1 then bs.readBool chan.2 else
          some (false, chan.2)).map fun enemy =>
        ((⟨sender, msg, enemy.1, chan.1, bs.readOffset enemy.2⟩ : chat_packet_data),
          enemy.2)) with
      | none => Except.error deserialize_error.bitstream_read_failure
      | some (r, _) => Except.ok r := by
  simp only [chat_read_flags]
  cases hc : (if bs.unreadBits s ≥ 8 then bs.readByte s else some (0, s)) with
  | none => simp
  | some pc =>
    obtain ⟨chan, s1⟩ := pc
    simp only [Option.some_bind]
    cases he : (if bs.unreadBits s1 ≥ 1 then bs.readBool s1 else some (false, s1)) with
    | none => simp
    | some pe =>
      obtain ⟨enemy, s2⟩ := pe
      simp

/-- The source chat deserializer computes exactly the spec-side pipeline
of §4.6, for every bit-stream implementation and payload. -/
theorem chat_matches_spec {σ : Type} (bs : BitStreamOps σ) (payload : List Nat) :
    deserialize_chat_packet bs payload = chat_packet_spec bs payload := by
  rcases payload with _ | ⟨x, xs⟩
  · rfl
  · simp only [deserialize_chat_packet, chat_packet_spec, List.isEmpty_cons, Bool.false_eq_true,
      if_false]
    rw [if_neg (List.cons_ne_nil x xs)]
    simp only [chat_read_strings]
    cases h1 : bs.readCompressed (bs.init (x :: xs)) with
    | none => simp
    | some p1 =>
      obtain ⟨len1, s1⟩ := p1
      simp only [Option.map_some', Option.some_bind]
      cases h2 : bs.readCompressed (if len1 > 0 then bs.ignoreBytes len1 s1 else s1) with
      | none => simp
      | some p2 =>
        obtain ⟨len2, s2⟩ := p2
        simp only [Option.some_bind]
        cases h3 : (if len2 > 0 then bs.readBytes len2 s2 else some ([], s2)) with
        | none => simp
        | some p3 =>
          obtain ⟨sender, s3⟩ := p3
          simp only [Option.some_bind]
          cases h4 : bs.readCompressed s3 with
          | none => simp
          | some p4 =>
            obtain ⟨len3, s4⟩ := p4
            simp only [Option.some_bind]
            cases h5 : (if len3 > 0 then bs.readBytes len3 s4 else some ([], s4)) with
            | none => simp
            | some p5 =>
              obtain ⟨msg, s5⟩ := p5
              simp only [Option.some_bind]
              exact chat_flags_eq bs sender msg s5

/-- Unfolding of the chat deserializer on a non-empty payload whose
string phase failed. -/
theorem chat_unfold_strings_none {σ : Type} (bs : BitStreamOps σ) (x : Nat) (xs : List Nat)
    (hs : chat_read_strings bs (bs.init (x :: xs)) = none) :
    deserialize_chat_packet bs (x :: xs) = .error .bitstream_read_failure := by
  simp only [deserialize_chat_packet, List.isEmpty_cons, Bool.false_eq_true, if_false, hs]

/-- Unfolding of the chat deserializer on a non-empty payload whose
string phase succeeded. -/
theorem chat_unfold_strings_some {σ : Type} (bs : BitStreamOps σ) (x : Nat) (xs : List Nat)
    (sender msg : List Nat) (s : σ)
    (hs : chat_read_strings bs (bs.init (x :: xs)) = some ((sender, msg), s)) :
    deserialize_chat_packet bs (x :: xs)
      = match chat_read_flags bs s with
        | none => .error .bitstream_read_failure
        | some ((chan, enemy), s2) => .ok ⟨sender, msg, enemy, chan, bs.readOffset s2⟩ := by
  simp only [deserialize_chat_packet, List.isEmpty_cons, Bool.false_eq_true, if_false, hs]

/-- A non-empty payload never makes the chat deserializer report
`insufficient_data`. -/
theorem chat_nonempty_not_insufficient {σ : Type} (bs : BitStreamOps σ)
    (payload : List Nat) (hp : payload ≠ []) :
    deserialize_chat_packet bs payload ≠ .error .insufficient_data := by
  rcases payload with _ | ⟨x, xs⟩
  · exact absurd rfl hp
  · rcases hs : chat_read_strings bs (bs.init (x :: xs)) with _ | ⟨⟨sender, msg⟩, s⟩
    · rw [chat_unfold_strings_none bs x xs hs]
      simp
    · rw [chat_unfold_strings_some bs x xs sender msg s hs]
      rcases chat_read_flags bs s with _ | ⟨⟨chan, enemy⟩, s2⟩
      · simp
      · simp

/-- Every error of the chat deserializer is `insufficient_data` or
`bitstream_read_failure`. -/
theorem chat_error_taxonomy {σ : Type} (bs : BitStreamOps σ) (payload : List Nat)
    (e : deserialize_error) (h : deserialize_chat_packet bs payload = .error e) :
    e = .insufficient_data ∨ e = .bitstream_read_failure := by
  rcases payload with _ | ⟨x, xs⟩
  · left
    have h2 : (Except.error deserialize_error.insufficient_data :
        Except deserialize_error chat_packet_data) = .error e :=
      (show deserialize_chat_packet bs [] = .error .insufficient_data from rfl).symm.trans h
    simp only [Except.error.injEq] at h2
    exact h2.symm
  · rcases hs : chat_read_strings bs (bs.init (x :: xs)) with _ | ⟨⟨sender, msg⟩, s⟩
    · right
      rw [chat_unfold_strings_none bs x xs hs] at h
      simp only [Except.error.injEq] at h
      exact h.symm
    · rw [chat_unfold_strings_some bs x xs sender msg s hs] at h
      cases hf : chat_read_flags bs s with
      | none =>
        right
        simp only [hf, Except.error.injEq] at h
        exact h.symm
      | some q =>
        obtain ⟨⟨chan, enemy⟩, s2⟩ := q
        simp only [hf] at h
        exact absurd h (by simp)

/-- C8: the chat deserializer fails with `insufficient_data` exactly on an
empty payload; on every non-empty payload it computes the §4.6 pipeline —
an ignored length-prefixed field, a length-prefixed sender name, a
length-prefixed message body, a one-byte channel id only if at least 8
unread bits remain, a one-bit enemy flag only if at least 1 unread bit
remains — and any failed bit-level read fails the whole call with
`bitstream_read_failure`, for every implementation of the injected
bit-stream interface. -/
theorem chat_deserializer_contract {σ : Type} (bs : BitStreamOps σ) (payload : List Nat) :
    deserialize_chat_packet bs payload = chat_packet_spec bs payload ∧
    (deserialize_chat_packet bs payload = .error .insufficient_data ↔ payload = []) ∧
    (∀ e, deserialize_chat_packet bs payload = .error e →
      e = .insufficient_data ∨ e = .bitstream_read_failure) := by
  refine ⟨chat_matches_spec bs payload, ⟨?_, ?_⟩, chat_error_taxonomy bs payload⟩
  · intro h
    by_contra hne
    exact chat_nonempty_not_insufficient bs payload hne h
  · intro h
    subst h
    rfl

/-- Witness for C8: the theorem applied to the concrete bit-stream
instance and a concrete non-empty payload, plus its error direction
exercised at the empty payload. -/
theorem chat_deserializer_contract_witness :
    (deserialize_chat_packet unitBitStream [7] = chat_packet_spec unitBitStream [7] ∧
      (deserialize_chat_packet unitBitStream [7] = .error .insufficient_data ↔
        ([7] : List Nat) = []) ∧
      (∀ e, deserialize_chat_packet unitBitStream [7] = .error e →
        e = .insufficient_data ∨ e = .bitstream_read_failure)) ∧
    (deserialize_chat_packet unitBitStream [] = .error .insufficient_data ↔
      ([] : List Nat) = []) :=
  ⟨chat_deserializer_contract unitBitStream [7],
   (chat_deserializer_contract unitBitStream []).2.1⟩


end wrpl
